import Mathlib

/-!
Verification of the statement classifier and interval correlator of the
SQL query tracer (`query_tracer.py`).

The classifier (`classify`, `is_system`) is a pure function over statement
text; we embed the Python string operations (`strip`, `upper`, `lower`,
`startswith`, substring containment `in`) as executable functions on
`List Char`.  The correlator (the grouping loop of the trace-log view) is
embedded as the pure function `correlate` over integer timestamps, with
dataframe row indices modelled by explicit index/value pairs (`withIdx`).
-/

/-- Python `str.lower` character by character (ASCII range suffices for the
fixed marker and table names used by the program). -/
def lowerChars (l : List Char) : List Char := l.map Char.toLower

/-- Python `str.upper` character by character. -/
def upperChars (l : List Char) : List Char := l.map Char.toUpper

/-- Python `str.strip`: drop whitespace from both ends. -/
def trimChars (l : List Char) : List Char :=
  ((l.dropWhile Char.isWhitespace).reverse.dropWhile Char.isWhitespace).reverse

/-- Python substring containment `needle in haystack`. -/
def containsSub (needle : List Char) : List Char → Bool
  | [] => needle.isEmpty
  | c :: t => needle.isPrefixOf (c :: t) || containsSub needle t

/-- Python `", ".join(xs)`. -/
def joinComma : List String → String
  | [] => ""
  | [x] => x
  | x :: y :: t => x ++ ", " ++ joinComma (y :: t)

/-- The fixed `TABLE_ENTITY` mapping of the source: DAB table name →
MCP entity name, in declared order. -/
def TABLE_ENTITY : List (String × String) :=
  [("Products", "Product"), ("Categories", "Category"), ("Customers", "Customer"),
   ("Orders", "Order"), ("OrderItems", "OrderItem")]

/-- The dictionary lookup `TABLE_ENTITY[t]` of the source (the default is
unreachable because lookups are only performed at keys of the mapping). -/
def lookupEntity (t : String) : String := (TABLE_ENTITY.lookup t).getD ""

/-- The keyword sequence of the `for kw in (...)` loop in `classify`. -/
def qtypeKw : List String := ["SELECT", "INSERT", "UPDATE", "DELETE", "EXEC"]

/-- The `for kw in ...: if upper.startswith(kw): qtype = kw; break` loop:
first keyword of the list that is a prefix of `u`. -/
def firstMatch (u : List Char) : List String → Option String
  | [] => none
  | kw :: rest => if (kw.data).isPrefixOf u then some kw else firstMatch u rest

/-- `qtype` as computed by the source: initialised to "OTHER", overwritten by
the first keyword the trimmed upper-cased text starts with. -/
def classifyKind (s : String) : String :=
  match firstMatch (upperChars (trimChars s.data)) qtypeKw with
  | some kw => kw
  | none => "OTHER"

/-- `tables = [t for t in TABLE_ENTITY if t.lower() in sql_text.lower()]`. -/
def tablesOf (s : String) : List String :=
  (TABLE_ENTITY.map Prod.fst).filter
    (fun t => containsSub (lowerChars t.data) (lowerChars s.data))

/-- `entities = [TABLE_ENTITY[t] for t in tables]`. -/
def entitiesOf (s : String) : List String := (tablesOf s).map lookupEntity

/-- The fixed `mcp_map` dictionary of the source. -/
def mcp_map : List (String × String) :=
  [("SELECT", "read_records"), ("INSERT", "create_record"),
   ("UPDATE", "update_record"), ("DELETE", "delete_record")]

/-- The classifier `classify(sql_text)` of the source, returning
`(qtype, tables label, mcp tool)`. -/
def classify (s : String) : String × String × String :=
  let qtype := classifyKind s
  let tables := tablesOf s
  let entities := tables.map lookupEntity
  let mcp :=
    match mcp_map.lookup qtype with
    | some verb =>
        if entities.isEmpty then
          if qtype = "SELECT" then "describe_entities?" else "—"
        else verb ++ "(" ++ joinComma entities ++ ")"
    | none => if qtype = "SELECT" then "describe_entities?" else "—"
  let lbl := joinComma tables
  (qtype, if lbl = "" then "—" else lbl, mcp)

/-- The fixed infrastructure marker list of `is_system`. -/
def sysMarks : List String :=
  ["sys.", "information_schema", "query_store", "dm_exec",
   "sp_reset_connection", "@@", "sp_trace", "xp_"]

/-- `is_system(text)`: the lower-cased text contains one of the markers. -/
def is_system (s : String) : Bool :=
  sysMarks.any (fun m => containsSub m.data (lowerChars s.data))

/-! ## Spec-side classifier definitions

These follow the words of the specification and are compared with the source
embedding above. -/

/-- Spec-side kind: test, in the fixed order SELECT, INSERT, UPDATE, DELETE,
EXEC, whether the trimmed upper-cased text starts with the keyword; the
first match wins; no match gives OTHER. -/
def kindSpec (s : String) : String :=
  let u := upperChars (trimChars s.data)
  if ("SELECT".data).isPrefixOf u then "SELECT"
  else if ("INSERT".data).isPrefixOf u then "INSERT"
  else if ("UPDATE".data).isPrefixOf u then "UPDATE"
  else if ("DELETE".data).isPrefixOf u then "DELETE"
  else if ("EXEC".data).isPrefixOf u then "EXEC"
  else "OTHER"

/-- Spec-side entity list: scan the fixed mapping in declared order, keep the
pairs whose storage-object name occurs case-insensitively in the text, and
take the domain-entity names. -/
def entitiesSpec (s : String) : List String :=
  (TABLE_ENTITY.filter
    (fun p => containsSub (lowerChars p.1.data) (lowerChars s.data))).map Prod.snd

/-- Spec-side fixed kind → verb mapping. -/
def verbOf (k : String) : String :=
  if k = "SELECT" then "read_records"
  else if k = "INSERT" then "create_record"
  else if k = "UPDATE" then "update_record"
  else if k = "DELETE" then "delete_record"
  else "—"

/-- Spec-side inferred operation: verb with entity list when at least one
entity matched and the kind is one of the four data kinds; the ambiguous
marker when the kind is SELECT and no entity matched; the placeholder
otherwise. -/
def operationSpec (s : String) : String :=
  if entitiesSpec s ≠ [] ∧
      (kindSpec s = "SELECT" ∨ kindSpec s = "INSERT" ∨
       kindSpec s = "UPDATE" ∨ kindSpec s = "DELETE") then
    verbOf (kindSpec s) ++ "(" ++ joinComma (entitiesSpec s) ++ ")"
  else if kindSpec s = "SELECT" then "describe_entities?"
  else "—"

/-! ## Interval correlator -/

/-- The time interval of an agent interaction (`start_dt` / `end_dt` of a trace
log entry), with timestamps as integers. -/
structure Interaction where
  startT : Int
  endT : Int
deriving DecidableEq

/-- The padded-window containment test of the grouping loop:
`(df["exec_ts"] >= start - pad) & (df["exec_ts"] <= end + pad)`. -/
def windowMask (pad : Int) (e : Interaction) (ts : Int) : Bool :=
  decide (e.startT - pad ≤ ts) && decide (ts ≤ e.endT + pad)

/-- The fixed padding `BUFFER_SEC = 30` of the source. -/
def BUFFER_SEC : Int := 30

/-- Dataframe rows with their integer index, starting at `n`. -/
def withIdx (n : Nat) : List Int → List (Nat × Int)
  | [] => []
  | t :: ts => (n, t) :: withIdx (n + 1) ts

/-- Rows indexed from 0, as after `df.reset_index(drop=True)`. -/
def enumIdx (stmts : List Int) : List (Nat × Int) := withIdx 0 stmts

/-- The per-iteration `group_df = df[mask]`: the rows whose timestamp lies in
the padded window of the interaction, in dataframe order. -/
def groupFor (pad : Int) (e : Interaction) (stmts : List Int) : List (Nat × Int) :=
  (enumIdx stmts).filter (fun p => windowMask pad e p.2)

/-- The grouping loop of the trace-log view: every interaction is paired
with the rows its padded window contains (the mask is recomputed over the
whole dataframe at each iteration); `matched_indices` accumulates the
matched row indices; `unmatched` keeps the rows whose index was never
matched, in dataframe order. -/
def correlate (pad : Int) (ints : List Interaction) (stmts : List Int) :
    List (Interaction × List (Nat × Int)) × List (Nat × Int) :=
  let groups := ints.map (fun e => (e, groupFor pad e stmts))
  let matched := groups.foldl (fun acc g => acc ++ g.2.map Prod.fst) ([] : List Nat)
  let unmatched := (enumIdx stmts).filter (fun p => !(matched.contains p.1))
  (groups, unmatched)

/-! ## Classifier lemmas -/

/-- The kind computed by the loop equals the spec-side nested first-match test. -/
theorem classifyKind_eq_kindSpec (s : String) : classifyKind s = kindSpec s := by
  unfold classifyKind kindSpec qtypeKw
  cases h1 : ("SELECT".data).isPrefixOf (upperChars (trimChars s.data)) <;>
  cases h2 : ("INSERT".data).isPrefixOf (upperChars (trimChars s.data)) <;>
  cases h3 : ("UPDATE".data).isPrefixOf (upperChars (trimChars s.data)) <;>
  cases h4 : ("DELETE".data).isPrefixOf (upperChars (trimChars s.data)) <;>
  cases h5 : ("EXEC".data).isPrefixOf (upperChars (trimChars s.data)) <;>
  simp [firstMatch, h1, h2, h3, h4, h5]

/-- The entity list of the source equals the spec-side filtered projection. -/
theorem entitiesOf_eq_spec (s : String) : entitiesOf s = entitiesSpec s := by
  unfold entitiesOf tablesOf entitiesSpec TABLE_ENTITY
  cases h1 : containsSub (lowerChars ("Products".data)) (lowerChars s.data) <;>
  cases h2 : containsSub (lowerChars ("Categories".data)) (lowerChars s.data) <;>
  cases h3 : containsSub (lowerChars ("Customers".data)) (lowerChars s.data) <;>
  cases h4 : containsSub (lowerChars ("Orders".data)) (lowerChars s.data) <;>
  cases h5 : containsSub (lowerChars ("OrderItems".data)) (lowerChars s.data) <;>
  simp [List.filter_cons, h1, h2, h3, h4, h5, lookupEntity, List.lookup, TABLE_ENTITY]

/-- Characterisation of the tables label: the placeholder exactly when no
table name occurs, the comma-joined table list otherwise. -/
theorem tables_label_char (s : String) :
    ((classify s).2.1 = "—" ↔ tablesOf s = [])
    ∧ (tablesOf s ≠ [] → (classify s).2.1 = joinComma (tablesOf s)) := by
  have hshow : (classify s).2.1 =
      (if joinComma (tablesOf s) = "" then "—" else joinComma (tablesOf s)) := rfl
  rw [hshow]
  unfold tablesOf TABLE_ENTITY
  cases h1 : containsSub (lowerChars ("Products".data)) (lowerChars s.data) <;>
  cases h2 : containsSub (lowerChars ("Categories".data)) (lowerChars s.data) <;>
  cases h3 : containsSub (lowerChars ("Customers".data)) (lowerChars s.data) <;>
  cases h4 : containsSub (lowerChars ("Orders".data)) (lowerChars s.data) <;>
  cases h5 : containsSub (lowerChars ("OrderItems".data)) (lowerChars s.data) <;>
  simp [List.filter_cons, h1, h2, h3, h4, h5, joinComma]

/-- The six possible values of the spec-side kind. -/
theorem kindSpec_cases (s : String) :
    kindSpec s = "SELECT" ∨ kindSpec s = "INSERT" ∨ kindSpec s = "UPDATE" ∨
    kindSpec s = "DELETE" ∨ kindSpec s = "EXEC" ∨ kindSpec s = "OTHER" := by
  unfold kindSpec
  dsimp only
  split_ifs <;> simp

/-- The operation rendering of the source coincides with the spec-side rendering. -/
theorem classify_mcp_eq_opSpec (s : String) : (classify s).2.2 = operationSpec s := by
  have hshow : (classify s).2.2 =
      (match mcp_map.lookup (classifyKind s) with
       | some verb =>
           if (entitiesOf s).isEmpty then
             if classifyKind s = "SELECT" then "describe_entities?" else "—"
           else verb ++ "(" ++ joinComma (entitiesOf s) ++ ")"
       | none =>
           if classifyKind s = "SELECT" then "describe_entities?" else "—") := rfl
  rw [hshow, classifyKind_eq_kindSpec s, entitiesOf_eq_spec s]
  unfold operationSpec
  rcases kindSpec_cases s with h | h | h | h | h | h <;> rw [h] <;>
    cases hes : entitiesSpec s <;>
      simp [mcp_map, List.lookup, verbOf]

/-! ## Correlator lemmas -/

/-- Indices produced by `withIdx n` are at least `n`. -/
theorem withIdx_idx_ge (l : List Int) : ∀ (n j : Nat) (a : Int),
    (j, a) ∈ withIdx n l → n ≤ j := by
  induction l with
  | nil => intro n j a h; simp [withIdx] at h
  | cons x t ih =>
    intro n j a h
    simp only [withIdx, List.mem_cons, Prod.mk.injEq] at h
    rcases h with ⟨h1, _⟩ | h
    · omega
    · have := ih (n + 1) j a h
      omega

/-- A given index carries a unique row value. -/
theorem withIdx_unique (l : List Int) : ∀ (n j : Nat) (a b : Int),
    (j, a) ∈ withIdx n l → (j, b) ∈ withIdx n l → a = b := by
  induction l with
  | nil => intro n j a b h _; simp [withIdx] at h
  | cons x t ih =>
    intro n j a b ha hb
    simp only [withIdx, List.mem_cons, Prod.mk.injEq] at ha hb
    rcases ha with ⟨ha1, ha2⟩ | ha <;> rcases hb with ⟨hb1, hb2⟩ | hb
    · rw [ha2, hb2]
    · exfalso; have := withIdx_idx_ge t (n + 1) j b hb; omega
    · exfalso; have := withIdx_idx_ge t (n + 1) j a ha; omega
    · exact ih (n + 1) j a b ha hb

/-- Membership in a fold that appends the image of each element. -/
theorem mem_foldl_append {α β : Type} (f : α → List β) (x : β) :
    ∀ (l : List α) (init : List β),
      (x ∈ l.foldl (fun acc g => acc ++ f g) init ↔ x ∈ init ∨ ∃ g ∈ l, x ∈ f g) := by
  intro l
  induction l with
  | nil => intro init; simp
  | cons h t ih =>
    intro init
    rw [List.foldl_cons, ih (init ++ f h)]
    simp only [List.mem_append, List.mem_cons]
    constructor
    · rintro (⟨hi | hf⟩ | ⟨g, hg, hx⟩)
      · exact Or.inl hi
      · exact Or.inr ⟨h, Or.inl rfl, hf⟩
      · exact Or.inr ⟨g, Or.inr hg, hx⟩
    · rintro (hi | ⟨g, (rfl | hg), hx⟩)
      · exact Or.inl (Or.inl hi)
      · exact Or.inl (Or.inr hx)
      · exact Or.inr ⟨g, hg, hx⟩

/-- For a row of the dataframe, its index is collected by the group of an
interaction exactly when the window mask holds at its timestamp. -/
theorem mem_groupFor_idx (pad : Int) (e : Interaction) (stmts : List Int)
    (i : Nat) (ts : Int) (hmem : (i, ts) ∈ enumIdx stmts) :
    (i ∈ (groupFor pad e stmts).map Prod.fst) ↔ windowMask pad e ts = true := by
  constructor
  · intro h
    rcases List.mem_map.1 h with ⟨p, hp, hpi⟩
    obtain ⟨pi, pv⟩ := p
    rcases List.mem_filter.1 hp with ⟨hpe, hpm⟩
    have hpi2 : pi = i := hpi
    rw [hpi2] at hpe
    have hv : pv = ts := withIdx_unique stmts 0 i pv ts hpe hmem
    rw [← hv]
    exact hpm
  · intro hm
    exact List.mem_map.2 ⟨(i, ts), List.mem_filter.2 ⟨hmem, hm⟩, rfl⟩

/-- The accumulated `matched_indices` contain the index of a row exactly when
the padded window of some interaction contains its timestamp. -/
theorem mem_matched_iff (pad : Int) (ints : List Interaction) (stmts : List Int)
    (i : Nat) (ts : Int) (hmem : (i, ts) ∈ enumIdx stmts) :
    ((ints.map (fun e => (e, groupFor pad e stmts))).foldl
        (fun acc g => acc ++ g.2.map Prod.fst) ([] : List Nat)).contains i = true
      ↔ ∃ e ∈ ints, windowMask pad e ts = true := by
  have hc : ((ints.map (fun e => (e, groupFor pad e stmts))).foldl
        (fun acc g => acc ++ g.2.map Prod.fst) ([] : List Nat)).contains i = true
      ↔ i ∈ (ints.map (fun e => (e, groupFor pad e stmts))).foldl
        (fun acc g => acc ++ g.2.map Prod.fst) ([] : List Nat) := by
    simp
  rw [hc, mem_foldl_append (fun g : Interaction × List (Nat × Int) => g.2.map Prod.fst) i]
  constructor
  · rintro (h | ⟨g, hg, hx⟩)
    · simp at h
    · rcases List.mem_map.1 hg with ⟨e, he, rfl⟩
      exact ⟨e, he, (mem_groupFor_idx pad e stmts i ts hmem).1 hx⟩
  · rintro ⟨e, he, hx⟩
    exact Or.inr ⟨(e, groupFor pad e stmts), List.mem_map.2 ⟨e, he, rfl⟩,
      (mem_groupFor_idx pad e stmts i ts hmem).2 hx⟩

/-- A row lands in `unmatched` exactly when no padded window contains it. -/
theorem mem_unmatched_iff (pad : Int) (ints : List Interaction) (stmts : List Int)
    (i : Nat) (ts : Int) (hmem : (i, ts) ∈ enumIdx stmts) :
    (i, ts) ∈ (correlate pad ints stmts).2 ↔ ∀ e ∈ ints, windowMask pad e ts = false := by
  have hun : (correlate pad ints stmts).2 =
      (enumIdx stmts).filter (fun p =>
        !((ints.map (fun e => (e, groupFor pad e stmts))).foldl
            (fun acc g => acc ++ g.2.map Prod.fst) ([] : List Nat)).contains p.1) := rfl
  rw [hun, List.mem_filter]
  constructor
  · rintro ⟨-, hb⟩ e he
    rw [Bool.not_eq_true'] at hb
    cases hmask : windowMask pad e ts
    · rfl
    · exfalso
      have hcon := (mem_matched_iff pad ints stmts i ts hmem).2 ⟨e, he, hmask⟩
      dsimp only at hb
      rw [hcon] at hb
      exact Bool.noConfusion hb
  · intro hall
    refine ⟨hmem, ?_⟩
    rw [Bool.not_eq_true']
    cases hcon : ((ints.map (fun e => (e, groupFor pad e stmts))).foldl
        (fun acc g => acc ++ g.2.map Prod.fst) ([] : List Nat)).contains i
    · rfl
    · exfalso
      rcases (mem_matched_iff pad ints stmts i ts hmem).1 hcon with ⟨e, he, hm⟩
      rw [hall e he] at hm
      cases hm

/-! ## Claim theorems -/

/-- C1 counterexample: with padding 0, interactions over [0,10] and [5,15]
and a single statement at time 7, the statement appears under both
interactions, so it is not in exactly one output group. -/
theorem correlate_duplicate_cex :
    (correlate 0 [⟨0, 10⟩, ⟨5, 15⟩] [7]).1 =
      [(⟨0, 10⟩, [(0, 7)]), (⟨5, 15⟩, [(0, 7)])]
    ∧ ((correlate 0 [⟨0, 10⟩, ⟨5, 15⟩] [7]).1.countP (fun g => decide ((0, 7) ∈ g.2))) = 2
    ∧ (correlate 0 [⟨0, 10⟩, ⟨5, 15⟩] [7]).2 = [] := by
  decide

/-- C1 (amended): the correlation loses no statement, places a statement in
`unmatched` exactly when no padded window contains its timestamp, and places
it in the group of every interaction whose padded window contains it — so a
statement covered by several overlapping windows is duplicated across their
groups rather than assigned to exactly one. -/
theorem correlate_coverage (pad : Int) (ints : List Interaction) (stmts : List Int)
    (i : Nat) (ts : Int) (hmem : (i, ts) ∈ enumIdx stmts) :
    ((i, ts) ∈ (correlate pad ints stmts).2 ↔ ∀ e ∈ ints, windowMask pad e ts = false)
    ∧ (∀ g ∈ (correlate pad ints stmts).1, ((i, ts) ∈ g.2 ↔ windowMask pad g.1 ts = true))
    ∧ ((i, ts) ∈ (correlate pad ints stmts).2
        ∨ ∃ g ∈ (correlate pad ints stmts).1, (i, ts) ∈ g.2) := by
  have hgr : (correlate pad ints stmts).1 = ints.map (fun e => (e, groupFor pad e stmts)) := rfl
  refine ⟨mem_unmatched_iff pad ints stmts i ts hmem, ?_, ?_⟩
  · intro g hg
    have hg2 : g ∈ ints.map (fun e => (e, groupFor pad e stmts)) := hg
    rcases List.mem_map.1 hg2 with ⟨e, _, rfl⟩
    constructor
    · intro h
      exact (List.mem_filter.1 h).2
    · intro h
      exact List.mem_filter.2 ⟨hmem, h⟩
  · by_cases hall : ∀ e ∈ ints, windowMask pad e ts = false
    · exact Or.inl ((mem_unmatched_iff pad ints stmts i ts hmem).2 hall)
    · right
      push_neg at hall
      rcases hall with ⟨e, he, hne⟩
      have hm : windowMask pad e ts = true := by
        cases h : windowMask pad e ts
        · exact absurd h hne
        · rfl
      refine ⟨(e, groupFor pad e stmts), ?_, List.mem_filter.2 ⟨hmem, hm⟩⟩
      rw [hgr]
      exact List.mem_map.2 ⟨e, he, rfl⟩

/-- C1 witness: the coverage theorem applied at a concrete input. -/
theorem correlate_coverage_check :
    ((0, 5) ∈ enumIdx [5, 99]) ∧
    (((0, 5) ∈ (correlate 0 [⟨0, 10⟩] [5, 99]).2
        ↔ ∀ e ∈ ([⟨0, 10⟩] : List Interaction), windowMask 0 e 5 = false)
     ∧ (∀ g ∈ (correlate 0 [⟨0, 10⟩] [5, 99]).1, ((0, 5) ∈ g.2 ↔ windowMask 0 g.1 5 = true))
     ∧ ((0, 5) ∈ (correlate 0 [⟨0, 10⟩] [5, 99]).2
         ∨ ∃ g ∈ (correlate 0 [⟨0, 10⟩] [5, 99]).1, (0, 5) ∈ g.2)) :=
  ⟨by decide, correlate_coverage 0 [⟨0, 10⟩] [5, 99] 0 5 (by decide)⟩

/-- C2 counterexample: interaction A = [0,10] is declared before B = [5,15],
both padded windows contain the statement at time 7, and yet the statement
appears in the group of B as well — assignment is not first-match-wins. -/
theorem correlate_first_match_cex :
    windowMask 0 ⟨0, 10⟩ 7 = true ∧ windowMask 0 ⟨5, 15⟩ 7 = true
    ∧ (correlate 0 [⟨0, 10⟩, ⟨5, 15⟩] [7]).1[1]? = some (⟨5, 15⟩, [(0, 7)]) := by
  decide

/-- C2 (amended): a statement whose timestamp lies in the padded windows of
both interactions A and B is placed in the group of A and also in the group
of B; no statement is removed from consideration after a match. -/
theorem correlate_overlap_both (pad : Int) (A B : Interaction) (stmts : List Int)
    (i : Nat) (ts : Int) (hmem : (i, ts) ∈ enumIdx stmts)
    (hA : windowMask pad A ts = true) (hB : windowMask pad B ts = true) :
    (correlate pad [A, B] stmts).1 =
      [(A, groupFor pad A stmts), (B, groupFor pad B stmts)]
    ∧ (i, ts) ∈ groupFor pad A stmts ∧ (i, ts) ∈ groupFor pad B stmts :=
  ⟨rfl, List.mem_filter.2 ⟨hmem, hA⟩, List.mem_filter.2 ⟨hmem, hB⟩⟩

/-- C2 witness: the overlap theorem applied at a concrete input. -/
theorem correlate_overlap_both_check :
    ((0, 7) ∈ enumIdx [7]) ∧ windowMask 0 ⟨0, 10⟩ 7 = true ∧ windowMask 0 ⟨5, 15⟩ 7 = true ∧
    ((correlate 0 [⟨0, 10⟩, ⟨5, 15⟩] [7]).1 =
        [(⟨0, 10⟩, groupFor 0 ⟨0, 10⟩ [7]), (⟨5, 15⟩, groupFor 0 ⟨5, 15⟩ [7])]
     ∧ (0, 7) ∈ groupFor 0 ⟨0, 10⟩ [7] ∧ (0, 7) ∈ groupFor 0 ⟨5, 15⟩ [7]) :=
  ⟨by decide, by decide, by decide,
   correlate_overlap_both 0 ⟨0, 10⟩ ⟨5, 15⟩ [7] 0 7 (by decide) (by decide) (by decide)⟩

/-- C3 counterexample: for the text "SELECT * FROM Products" the second
component is the storage-object name "Products", not the comma-joined
domain-entity names (which would be "Product"). -/
theorem classify_entities_label_cex :
    (classify "SELECT * FROM Products").2.1 = "Products"
    ∧ entitiesOf "SELECT * FROM Products" = ["Product"]
    ∧ (classify "SELECT * FROM Products").2.1 ≠ joinComma (entitiesOf "SELECT * FROM Products") := by
  decide

/-- C3 (amended): the second component of classify is the comma-joined list
of the storage-object (table) names of the fixed mapping that occur
case-insensitively in the text, in the mapping declared order, or the
placeholder when none occurs. -/
theorem classify_tables_label :
    (∀ s : String,
      ((classify s).2.1 = "—" ↔ tablesOf s = [])
      ∧ (tablesOf s ≠ [] → (classify s).2.1 = joinComma (tablesOf s)))
    ∧ (classify "select * from PRODUCTS p join categories c ...").2.1 = "Products, Categories" :=
  ⟨fun s => tables_label_char s, by decide⟩

/-- C3 witness: the label theorem applied at a concrete input. -/
theorem classify_tables_label_check :
    tablesOf "SELECT * FROM Orders" ≠ [] ∧
    (classify "SELECT * FROM Orders").2.1 = joinComma (tablesOf "SELECT * FROM Orders") :=
  ⟨by decide, (classify_tables_label.1 "SELECT * FROM Orders").2 (by decide)⟩

/-- C4: the padded window is [startT - pad, endT + pad] with the same padding
on both ends, containment is inclusive at both padded bounds, and any
timestamp strictly before startT - pad is excluded. -/
theorem windowMask_padded_symmetric (pad : Int) (e : Interaction)
    (hpad : 0 ≤ pad) (hse : e.startT ≤ e.endT) :
    (∀ ts : Int, windowMask pad e ts = true ↔ e.startT - pad ≤ ts ∧ ts ≤ e.endT + pad)
    ∧ windowMask pad e (e.startT - pad) = true
    ∧ windowMask pad e (e.endT + pad) = true
    ∧ (∀ ts : Int, ts < e.startT - pad → windowMask pad e ts = false) := by
  refine ⟨?_, ?_, ?_, ?_⟩
  · intro ts
    simp [windowMask]
  · simp only [windowMask, Bool.and_eq_true, decide_eq_true_eq]
    omega
  · simp only [windowMask, Bool.and_eq_true, decide_eq_true_eq]
    omega
  · intro ts h
    simp only [windowMask, Bool.and_eq_false_iff, decide_eq_false_iff_not]
    omega

/-- C4 witness: the window theorem applied at a concrete interaction. -/
theorem windowMask_padded_symmetric_check :
    windowMask 30 ⟨0, 10⟩ (-30) = true ∧ windowMask 30 ⟨0, 10⟩ 40 = true ∧
    windowMask 30 ⟨0, 10⟩ (-31) = false :=
  ⟨(windowMask_padded_symmetric 30 ⟨0, 10⟩ (by decide) (by decide)).2.1,
   (windowMask_padded_symmetric 30 ⟨0, 10⟩ (by decide) (by decide)).2.2.1,
   (windowMask_padded_symmetric 30 ⟨0, 10⟩ (by decide) (by decide)).2.2.2 (-31) (by decide)⟩

/-- C5: the kind is determined by testing, in the fixed order SELECT, INSERT,
UPDATE, DELETE, EXEC, whether the trimmed upper-cased text starts with the
keyword, first match winning and only the leading token counting; no match
gives OTHER; in particular a text with a later keyword in its body still
receives SELECT. -/
theorem classify_kind_first_keyword :
    (∀ s : String, (classify s).1 = kindSpec s)
    ∧ (classify "Select * from X; Insert ...").1 = "SELECT" :=
  ⟨fun s => classifyKind_eq_kindSpec s, by decide⟩

/-- C6: the third component of classify is the verb of the fixed kind → verb
map applied to the matched domain-entity names when at least one entity
matched and the kind is one of the four data kinds, the ambiguous marker
exactly when the kind is SELECT and no entity matched, and the placeholder
otherwise. -/
theorem classify_inferred_operation :
    (∀ s : String, (classify s).2.2 = operationSpec s)
    ∧ (classify "SELECT @@VERSION").2.2 = "describe_entities?"
    ∧ (classify "UPDATE Orders SET status = 1").2.2 = "update_record(Order)" :=
  ⟨fun s => classify_mcp_eq_opSpec s, by decide, by decide⟩

/-- C7: each group and the unmatched residue are sublists of the indexed
input sequence: within every group, statements keep their input order. -/
theorem correlate_order_preserved (pad : Int) (ints : List Interaction) (stmts : List Int) :
    (∀ g ∈ (correlate pad ints stmts).1, List.Sublist g.2 (enumIdx stmts))
    ∧ List.Sublist (correlate pad ints stmts).2 (enumIdx stmts) := by
  constructor
  · intro g hg
    have hg2 : g ∈ ints.map (fun e => (e, groupFor pad e stmts)) := hg
    rcases List.mem_map.1 hg2 with ⟨e, -, rfl⟩
    exact List.filter_sublist _
  · exact List.filter_sublist _

/-- C7 witness: the order theorem applied at a concrete input. -/
theorem correlate_order_preserved_check :
    List.Sublist (groupFor 0 (Interaction.mk 0 10) [5, 20]) (enumIdx [5, 20])
    ∧ List.Sublist (correlate 0 [Interaction.mk 0 10] [5, 20]).2 (enumIdx [5, 20]) :=
  ⟨(correlate_order_preserved 0 [Interaction.mk 0 10] [5, 20]).1
      (Interaction.mk 0 10, groupFor 0 (Interaction.mk 0 10) [5, 20]) (by decide),
   (correlate_order_preserved 0 [Interaction.mk 0 10] [5, 20]).2⟩

/-- C8: with no interactions every statement lands in unmatched in input
order; with no statements every group is empty and unmatched is empty. -/
theorem correlate_empty_inputs (pad : Int) (ints : List Interaction) (stmts : List Int) :
    correlate pad ([] : List Interaction) stmts = ([], enumIdx stmts)
    ∧ correlate pad ints ([] : List Int) = (ints.map (fun e => (e, [])), []) := by
  constructor
  · have h1 : correlate pad ([] : List Interaction) stmts =
        ([], (enumIdx stmts).filter (fun p => !(([] : List Nat).contains p.1))) := rfl
    rw [h1]
    have h2 : (enumIdx stmts).filter (fun p => !(([] : List Nat).contains p.1)) = enumIdx stmts :=
      List.filter_eq_self.2 (fun a _ => rfl)
    rw [h2]
  · rfl

/-- C9: the infrastructure predicate is the total function returning true
exactly when the lower-cased text contains one of the fixed markers; it
accepts the reset-connection call and rejects a plain Products query. -/
theorem is_system_marker_char :
    (∀ s : String, is_system s = true ↔
        ∃ m ∈ sysMarks, containsSub m.data (lowerChars s.data) = true)
    ∧ is_system "EXEC sp_reset_connection" = true
    ∧ is_system "SELECT * FROM Products" = false :=
  ⟨fun s => by simp [is_system, List.any_eq_true], by decide, by decide⟩

/-- C10: whenever at least one table matched and the kind is one of the four
data kinds, the second component joins the matched storage-object names and
the third component joins exactly their images under the fixed mapping, in
the same order and number. -/
theorem classify_components_consistent (s : String)
    (h1 : tablesOf s ≠ [])
    (h2 : (classify s).1 = "SELECT" ∨ (classify s).1 = "INSERT" ∨
          (classify s).1 = "UPDATE" ∨ (classify s).1 = "DELETE") :
    (classify s).2.1 = joinComma (tablesOf s)
    ∧ (classify s).2.2 =
        verbOf (classify s).1 ++ "(" ++ joinComma ((tablesOf s).map lookupEntity) ++ ")"
    ∧ ((tablesOf s).map lookupEntity).length = (tablesOf s).length := by
  refine ⟨(tables_label_char s).2 h1, ?_, List.length_map _ _⟩
  have hk : (classify s).1 = classifyKind s := rfl
  have hne : ((tablesOf s).map lookupEntity).isEmpty = false := by
    cases ht : tablesOf s
    · exact absurd ht h1
    · rfl
  have hshow : (classify s).2.2 =
      (match mcp_map.lookup (classifyKind s) with
       | some verb =>
           if ((tablesOf s).map lookupEntity).isEmpty then
             if classifyKind s = "SELECT" then "describe_entities?" else "—"
           else verb ++ "(" ++ joinComma ((tablesOf s).map lookupEntity) ++ ")"
       | none =>
           if classifyKind s = "SELECT" then "describe_entities?" else "—") := rfl
  rw [hk] at h2
  rw [hk, hshow]
  rcases h2 with h | h | h | h <;> rw [h] <;>
    simp [mcp_map, List.lookup, verbOf, hne]

/-- C10 witness: the consistency theorem applied at a concrete input. -/
theorem classify_components_consistent_check :
    tablesOf "SELECT * FROM Products" ≠ [] ∧
    ((classify "SELECT * FROM Products").2.1 = joinComma (tablesOf "SELECT * FROM Products")
     ∧ (classify "SELECT * FROM Products").2.2 =
         verbOf (classify "SELECT * FROM Products").1 ++ "(" ++
           joinComma ((tablesOf "SELECT * FROM Products").map lookupEntity) ++ ")"
     ∧ ((tablesOf "SELECT * FROM Products").map lookupEntity).length =
         (tablesOf "SELECT * FROM Products").length) :=
  ⟨by decide, classify_components_consistent "SELECT * FROM Products" (by decide) (by decide)⟩
